import Mathlib

/-!
Verification of the price-predictor backend (feature preparation, market
comparison, prediction assembly, artifact loading).

Shallow embedding of the repository's Python sources:
* `src/price-predictor-backend/utils.py` — `prepare_features`,
  `get_default_value`, `calculate_market_average`, `load_models_and_schemas`,
  `get_categories_from_github`;
* `src/app.py` and `src/price-predictor-backend/app.py` — the two `predict`
  route variants.

Modelling conventions:
* Python floats are rationals (`ℚ`); exact arithmetic, no binary rounding.
* A JSON / request scalar is a `RawVal` (string, integer or float).
* A Python dict keyed by strings is a function `String → Option RawVal`
  (`none` = key absent), matching `dict.get` / `in` semantics.
* Python's fallible `float()` coercion is `pyFloat : RawVal → Option ℚ`
  (`none` = `ValueError`); code regions guarded by `try/except` become
  `Except Unit` computations.
* A pandas DataFrame is a `Frame`: a list of rows plus per-column presence
  flags for the optional columns the code consults; rows are fully typed
  (cells are non-null), as produced by a well-formed CSV load — in
  particular the `price` column is always present and numeric, the
  MarketDataset invariant stated by the design.
-/

deriving instance DecidableEq for Except

/-- A scalar value as it arrives in a JSON payload: string, int, or float. -/
inductive RawVal where
  | str (s : String)
  | int (n : ℤ)
  | float (q : ℚ)
deriving DecidableEq, Repr

/-- Digits-to-number accumulator for decimal literals. -/
def natOfDigits (cs : List Char) : ℕ :=
  cs.foldl (fun a c => 10 * a + (c.toNat - 48)) 0

/-- Strip leading and trailing whitespace from a character list (the
`str.strip()` Python's `float()` performs before parsing). -/
def trimChars (cs : List Char) : List Char :=
  ((cs.dropWhile Char.isWhitespace).reverse.dropWhile Char.isWhitespace).reverse

/-- A successfully parsed decimal literal, in discrete components. -/
structure DecLit where
  negative : Bool
  intPart : ℕ
  fracPart : ℕ
  fracLen : ℕ
deriving DecidableEq, Repr

/-- Discrete stage of Python's `float(s)`: recognise a plain decimal
literal — optional sign, integer part, optional fractional part (at least
one digit overall), surrounding whitespace stripped.  Exponents, `inf`,
`nan` and underscores are outside the model and map to failure, as does
every string that is not a decimal literal (Python raises `ValueError`;
we return `none`). -/
def parseDecLit (s : String) : Option DecLit :=
  let cs := trimChars s.data
  let signed : Bool × List Char :=
    match cs with
    | '+' :: rest => (false, rest)
    | '-' :: rest => (true, rest)
    | rest => (false, rest)
  let body := signed.2
  let intPart := body.takeWhile Char.isDigit
  let after := body.dropWhile Char.isDigit
  match after with
  | [] =>
      if intPart = [] then none
      else some ⟨signed.1, natOfDigits intPart, 0, 0⟩
  | '.' :: fracPart =>
      if fracPart.all Char.isDigit ∧ (intPart ≠ [] ∨ fracPart ≠ []) then
        some ⟨signed.1, natOfDigits intPart, natOfDigits fracPart, fracPart.length⟩
      else none
  | _ => none

/-- The rational value of a parsed decimal literal. -/
def ratOfDecLit (d : DecLit) : ℚ :=
  (if d.negative then -1 else 1) * ((d.intPart : ℚ) + (d.fracPart : ℚ) / 10 ^ d.fracLen)

/-- Python `float(s)` on a string (see `parseDecLit`). -/
def pyFloatString (s : String) : Option ℚ :=
  (parseDecLit s).map ratOfDecLit

/-- Python `float(v)`: numbers coerce to themselves, strings are parsed,
anything unparsable raises (`none`). -/
def pyFloat : RawVal → Option ℚ
  | .str s => pyFloatString s
  | .int n => some (n : ℚ)
  | .float q => some q

/-- Decimal rendering used by `pyStr` on floats.  Faithful to Python's
`str()` for integral floats (`str(4.0) = "4.0"`); non-integral floats keep
a rational fallback rendering (no theorem in this file evaluates `pyStr`
on a non-integral float). -/
def pyStrFloat (q : ℚ) : String :=
  if q.den = 1 then toString q.num ++ ".0"
  else toString q

/-- Python `str(v)` for the scalar values of the model. -/
def pyStr : RawVal → String
  | .str s => s
  | .int n => toString n
  | .float q => pyStrFloat q

/-- `s.endswith(suffix)`, computed on the underlying character lists so the
kernel can evaluate it. -/
def strEndsWith (s suffix : String) : Bool :=
  decide (suffix.data.length ≤ s.data.length) &&
    decide (s.data.drop (s.data.length - suffix.data.length) = suffix.data)

/-- Python slicing `s[:-k]` for `k ≤ len(s)`, on character lists. -/
def strDropRight (s : String) (k : ℕ) : String :=
  ⟨s.data.take (s.data.length - k)⟩

/-- `utils.get_default_value(name)`: per-name default used when a plain
numeric feature is absent from the payload (`utils.py` lines 119–133). -/
def get_default_value (name : String) : ℚ :=
  (([("rating", (4 : ℚ)),
     ("discount", 10),
     ("discount_percentage", 10),
     ("stock", 50),
     ("warranty", 12),
     ("screen_size", 6),
     ("storage", 128),
     ("ram", 8),
     ("processor_score", 2000),
     ("dimensions", 100),
     ("weight", 20)] : List (String × ℚ)).lookup name).getD 0

/-- The request payload: a dict from attribute name to scalar. -/
def RawDict : Type := String → Option RawVal

/-- A category schema after the three `schema.get(...)` accesses of
`prepare_features`, plus the `model_info.r2_score` slot read by `predict`
(`none` when the key is absent from `model_info`). -/
structure Schema where
  feature_columns : List String
  categorical_columns : List String
  encoders : List (String × List String)
  r2_score : Option ℚ
deriving DecidableEq, Repr

/-- The empty dict `{}` that `schemas.get(category, {})` falls back to in
`src/app.py`. -/
def emptySchema : Schema :=
  ⟨[], [], [], none⟩

/-- One column of `utils.prepare_features` (`utils.py` lines 106–116):
an `_encoded` column whose base is a declared categorical looks the
stringified raw value up in the encoder class list (missing value → `""`,
unknown label → index 0); an `_encoded` column with an undeclared base
yields 0; a plain column coerces the raw value with `float()` — which can
raise — or, when the key is absent, takes the per-name default (always a
numeric literal, so its `float()` never raises). -/
def featOne (data : RawDict) (schema : Schema) (col : String) : Except Unit ℚ :=
  if strEndsWith col "_encoded" then
    let original := strDropRight col 8
    if original ∈ schema.categorical_columns then
      let val := pyStr ((data original).getD (RawVal.str ""))
      let classes := (schema.encoders.lookup original).getD []
      .ok (if val ∈ classes then (classes.indexOf val : ℚ) else 0)
    else .ok 0
  else
    match data col with
    | some v =>
        match pyFloat v with
        | some q => .ok q
        | none => .error ()
    | none => .ok (get_default_value col)

/-- Left-to-right accumulation of `feats` in `prepare_features`; the first
column whose coercion raises aborts the whole call, as in Python. -/
def featList (data : RawDict) (schema : Schema) : List String → Except Unit (List ℚ)
  | [] => .ok []
  | c :: cs =>
    match featOne data schema c with
    | .error e => .error e
    | .ok x =>
      match featList data schema cs with
      | .error e => .error e
      | .ok xs => .ok (x :: xs)

/-- `utils.prepare_features(data, schema)` (`utils.py` lines 99–117):
build the feature vector in `schema.feature_columns` order. -/
def prepare_features (data : RawDict) (schema : Schema) : Except Unit (List ℚ) :=
  featList data schema schema.feature_columns

/-- The per-column value described by the specification's words for
`FeatureVectorBuilder.build`, written as a total function (spec side of the
refinement; compare with `featOne`, the code side). -/
def claim_column_value (data : RawDict) (schema : Schema) (col : String) : ℚ :=
  if strEndsWith col "_encoded" then
    let base := strDropRight col 8
    if base ∈ schema.categorical_columns then
      let s := pyStr ((data base).getD (RawVal.str ""))
      let cls := (schema.encoders.lookup base).getD []
      if s ∈ cls then (cls.indexOf s : ℚ) else 0
    else 0
  else
    match data col with
    | some v => (pyFloat v).getD 0
    | none => get_default_value col

/-- `true` when the value stored at `col` (if any) survives Python's
`float()` coercion; an absent key is vacuously coercible. -/
def coercibleAt (data : RawDict) (col : String) : Bool :=
  match data col with
  | some v => (pyFloat v).isSome
  | none => true


/-- One product row of a category's market-data CSV.  Only the columns that
`calculate_market_average` and the stats endpoints consult are modelled;
every cell is typed and non-null (well-formed CSV load, the MarketDataset
invariant: `price` numeric and always present). -/
structure Row where
  price : ℚ
  rating : ℚ
  brand : String
  storage : ℚ
  ram : ℚ
  material : String
deriving DecidableEq, Repr

/-- A loaded pandas DataFrame: its rows plus which optional columns exist
(`"x" in df.columns`).  Filters read a field only when the corresponding
column-presence flag is `true`, mirroring the guarded column accesses in
the code. -/
structure Frame where
  rows : List Row
  hasBrand : Bool
  hasRating : Bool
  hasStorage : Bool
  hasRam : Bool
  hasMaterial : Bool
deriving DecidableEq, Repr

/-- `df["price"].mean()` over the modelled rows (callers guard against the
empty case). -/
def meanPrice (rows : List Row) : ℚ :=
  (rows.map Row.price).sum / rows.length

/-- `str.lower()` on the character list (ASCII case folding, which covers
the payloads this backend compares). -/
def pyLower (s : String) : String :=
  ⟨s.data.map Char.toLower⟩

/-- A case-insensitive exact-match filter that is applied only when it
keeps at least one row (`mask = df[col].str.lower() == str(v).lower();
if mask.any(): df = df[mask]`) — used for `brand` and `material`. -/
def matchFilter (rows : List Row) (get : Row → String) (v : RawVal) : List Row :=
  if rows.filter (fun r => pyLower (get r) = pyLower (pyStr v)) = [] then rows
  else rows.filter (fun r => pyLower (get r) = pyLower (pyStr v))

/-- A symmetric numeric tolerance band
(`df = df[abs(df[col] - float(v)) <= tol]`); `float(v)` may raise. -/
def tolFilter (rows : List Row) (get : Row → ℚ) (v : RawVal) (tol : ℚ) :
    Except Unit (List Row) :=
  match pyFloat v with
  | none => .error ()
  | some x => .ok (rows.filter (fun r => |get r - x| ≤ tol))

/-- The brand step of `calculate_market_average` (`utils.py` lines 144–148):
when the payload supplies `brand` and the frame has a `brand` column,
filter case-insensitively but keep the unfiltered rows when no row
matches; otherwise pass the rows through. -/
def brandFilter (features : RawDict) (f : Frame) : List Row :=
  match features "brand", f.hasBrand with
  | some v, true => matchFilter f.rows Row.brand v
  | _, _ => f.rows

/-- The guarded pattern `if name in features and col in df.columns:
df = df[abs(df[col] - float(features[name])) <= tol]` shared by all the
numeric narrowing steps: apply the tolerance band only when the feature
was supplied and the column exists. -/
def maybeTolFilter (o : Option RawVal) (has : Bool) (rows : List Row)
    (get : Row → ℚ) (tol : ℚ) : Except Unit (List Row) :=
  match o, has with
  | some v, true => tolFilter rows get v tol
  | _, _ => .ok rows

/-- The category-specific narrowing of `calculate_market_average`
(`utils.py` lines 150–167), applied cumulatively to the already
brand-narrowed rows: phones narrow by storage (±128) then ram (±4);
laptops by ram (±8) then storage (±256); furniture by material (exact
case-insensitive, skipped when it would empty the set); other categories
are untouched. -/
def categoryNarrow (category : String) (features : RawDict) (f : Frame)
    (rows : List Row) : Except Unit (List Row) :=
  if category = "phones" then
    match maybeTolFilter (features "storage") f.hasStorage rows Row.storage 128 with
    | .error e => .error e
    | .ok rows1 => maybeTolFilter (features "ram") f.hasRam rows1 Row.ram 4
  else if category = "laptops" then
    match maybeTolFilter (features "ram") f.hasRam rows Row.ram 8 with
    | .error e => .error e
    | .ok rows1 => maybeTolFilter (features "storage") f.hasStorage rows1 Row.storage 256
  else if category = "furniture" then
    match features "material", f.hasMaterial with
    | some v, true => .ok (matchFilter rows Row.material v)
    | _, _ => .ok rows
  else .ok rows

/-- The relaxation fallback of `calculate_market_average` (`utils.py`
lines 170–173): restart from the full dataset and apply only the
rating-tolerance filter (±1.0) when a rating feature was supplied and the
frame has a rating column. -/
def broaden (features : RawDict) (f : Frame) : Except Unit (List Row) :=
  maybeTolFilter (features "rating") f.hasRating f.rows Row.rating 1

/-- The `try`-block of `calculate_market_average` (`utils.py` lines
141–178): brand filter, category narrowing, the fewer-than-5 relaxation,
then the mean — of the original rows when the final set is empty, of the
final set otherwise.  An `.error` is a Python exception reaching the
`except` handler. -/
def cma_body (category : String) (features : RawDict) (f : Frame) :
    Except Unit ℚ :=
  match categoryNarrow category features f (brandFilter features f) with
  | .error e => .error e
  | .ok rows2 =>
    match (if rows2.length < 5 then broaden features f else .ok rows2) with
    | .error e => .error e
    | .ok rows3 =>
      .ok (if rows3 = [] then meanPrice f.rows else meanPrice rows3)

/-- `utils.calculate_market_average(category, features, market_data)`
(`utils.py` lines 136–181): 500.0 when the category's dataset is missing
or empty; otherwise the `try`-block result, with any exception inside it
caught and mapped to the mean price of the original unfiltered dataset. -/
def calculate_market_average (category : String) (features : RawDict)
    (market_data : String → Option Frame) : ℚ :=
  match market_data category with
  | none => 500
  | some f =>
    if f.rows = [] then 500
    else
      match cma_body category features f with
      | .ok v => v
      | .error _ => meanPrice f.rows

/-- Round-half-to-even to the nearest integer, the tie rule of Python's
builtin `round` (modelled in exact rational arithmetic). -/
def roundHalfEven (q : ℚ) : ℤ :=
  if q - ⌊q⌋ < 1/2 then ⌊q⌋
  else if 1/2 < q - ⌊q⌋ then ⌊q⌋ + 1
  else if ⌊q⌋ % 2 = 0 then ⌊q⌋ else ⌊q⌋ + 1

/-- Python `round(q, 1)`. -/
def pyRound1 (q : ℚ) : ℚ :=
  (roundHalfEven (q * 10) : ℚ) / 10

/-- Python `round(q, 2)`. -/
def pyRound2 (q : ℚ) : ℚ :=
  (roundHalfEven (q * 100) : ℚ) / 100

/-- Python division, `none` on a zero divisor (`ZeroDivisionError`). -/
def pyDiv (a b : ℚ) : Option ℚ :=
  if b = 0 then none else some (a / b)

/-- The confidence clamp of both `predict` variants:
`max(0.6, min(0.95, r2))` (`src/app.py` line 70,
`src/price-predictor-backend/app.py` line 86). -/
def confidence_clamp (r2 : ℚ) : ℚ :=
  max 0.6 (min 0.95 r2)

/-- The `r2_score` both `predict` variants read:
`schemas.get(category, {}).get("model_info", {}).get("r2_score", 0.8)`. -/
def model_r2 (schemas : String → Option Schema) (category : String) : ℚ :=
  (((schemas category).getD emptySchema).r2_score).getD 0.8

/-- The comparison percentage of `src/app.py` line 80:
`round(abs(pred - avg) / max(avg, 1e-6) * 100, 1)`; the division is
checked, so the epsilon guard is visible in the model. -/
def percentage (pred avg : ℚ) : Option ℚ :=
  match pyDiv (|pred - avg|) (max avg (1/1000000)) with
  | none => none
  | some q => some (pyRound1 (q * 100))

/-- The comparison percentage of `src/price-predictor-backend/app.py`
line 96: `round(abs(pred - avg) / (avg or 1) * 100, 2)` — the guard is
Python truthiness (`avg or 1` is `1` exactly when `avg == 0`). -/
def percentage_backend (pred avg : ℚ) : Option ℚ :=
  match pyDiv (|pred - avg|) (if avg = 0 then 1 else avg) with
  | none => none
  | some q => some (pyRound2 (q * 100))

/-- An external per-category regression model: numeric vector in, price
out; `none` models the opaque predictor raising. -/
def Predictor : Type := List ℚ → Option ℚ

/-- The JSON body both `predict` routes return on success (the root
variant additionally echoes `features_used`, which no claim concerns). -/
structure PredictionResult where
  category : String
  predicted_price : ℚ
  market_average : ℚ
  confidence : ℚ
  vs_market : String
  difference : ℚ
  percentage : ℚ
deriving DecidableEq, Repr

/-- Outcome of a `predict` route: 404, 500, or the 200 body. -/
inductive PredictOutcome where
  | notFound
  | computeError
  | ok (r : PredictionResult)
deriving DecidableEq, Repr

/-- The `confidence` field of a successful `predict` response. -/
def confidenceOf : PredictOutcome → Option ℚ
  | .ok r => some r.confidence
  | _ => none

/-- The `predict` route of `src/app.py` (lines 58–87): guards only on the
model's presence; the schema silently defaults to `{}`; every exception in
the body (feature coercion, the external predictor) becomes a 500. -/
def predict_main (models : String → Option Predictor)
    (schemas : String → Option Schema) (market_data : String → Option Frame)
    (category : String) (data : RawDict) : PredictOutcome :=
  match models category with
  | none => .notFound
  | some model =>
    match prepare_features data ((schemas category).getD emptySchema) with
    | .error _ => .computeError
    | .ok feats =>
      match model feats with
      | none => .computeError
      | some y_hat =>
        match percentage y_hat (calculate_market_average category data market_data) with
        | none => .computeError
        | some pct =>
          .ok ⟨category, pyRound2 y_hat,
               pyRound2 (calculate_market_average category data market_data),
               pyRound2 (confidence_clamp (model_r2 schemas category)),
               if y_hat > calculate_market_average category data market_data
               then "above" else "below",
               pyRound2 (|y_hat - calculate_market_average category data market_data|),
               pct⟩

/-- The `predict` route of `src/price-predictor-backend/app.py`
(lines 68–101): guards on both the model's and the schema's presence. -/
def predict_backend (models : String → Option Predictor)
    (schemas : String → Option Schema) (market_data : String → Option Frame)
    (category : String) (data : RawDict) : PredictOutcome :=
  match models category, schemas category with
  | some model, some schema =>
    (match prepare_features data schema with
     | .error _ => .computeError
     | .ok feats =>
       match model feats with
       | none => .computeError
       | some y_hat =>
         match percentage_backend y_hat
             (calculate_market_average category data market_data) with
         | none => .computeError
         | some pct =>
           .ok ⟨category, pyRound2 y_hat,
                pyRound2 (calculate_market_average category data market_data),
                pyRound2 (confidence_clamp (schema.r2_score.getD 0.8)),
                if y_hat > calculate_market_average category data market_data
                then "above" else "below",
                pyRound2 (|y_hat - calculate_market_average category data market_data|),
                pct⟩)
  | _, _ => .notFound

/-- The external GitHub/content host seen by the loader, as immutable
oracles: `listing` is the category list extracted from the models/
directory listing (`none` = request/JSON failure), `rateLimited` marks a
rate-limit message body; the three per-category fetch-and-parse pipelines
yield `none` on any failure (network error, bad content-type, parse
error).  A model artifact is opaque and represented by a numeric id. -/
structure Net where
  listing : Option (List String)
  rateLimited : Bool
  fetchModel : String → Option ℕ
  fetchSchema : String → Option Schema
  fetchData : String → Option Frame

/-- The module-level mutable caches of `utils.py` (lines 15–18):
`_cached_models`, `_cached_schemas`, `_cached_data` as insertion-ordered
dicts, and `_cached_categories`. -/
structure LoadState where
  models : List (String × ℕ)
  schemas : List (String × Schema)
  data : List (String × Frame)
  catsCache : Option (List String)
deriving DecidableEq

/-- The empty caches at process start. -/
def initialLoadState : LoadState :=
  ⟨[], [], [], none⟩

/-- Python dict assignment `d[k] = v` on an insertion-ordered
association list. -/
def dinsert {α : Type} (k : String) (v : α) (d : List (String × α)) :
    List (String × α) :=
  if (d.lookup k).isSome then
    d.map (fun p => if p.1 = k then (k, v) else p)
  else d ++ [(k, v)]

/-- The category list `get_categories_from_github` computes when its cache
is cold (`utils.py` lines 30–55): the listing's names, with the fixed
default list on request failure, rate-limit bodies, or an empty result. -/
def categoriesResult (net : Net) : List String :=
  match net.listing with
  | none => ["phones", "laptops", "furniture"]
  | some files =>
    if net.rateLimited then ["phones", "laptops", "furniture"]
    else if files = [] then ["phones", "laptops", "furniture"]
    else files

/-- `utils.get_categories_from_github()` with its cache (`utils.py` lines
21–55): a truthy (non-empty) cached list short-circuits; otherwise one
listing request is made and the result cached.  The third component counts
network requests issued. -/
def get_categories_from_github (net : Net) (s : LoadState) :
    List String × LoadState × ℕ :=
  match s.catsCache with
  | some (c :: cs) => (c :: cs, s, 0)
  | _ =>
    let cats := categoriesResult net
    (cats, ⟨s.models, s.schemas, s.data, some cats⟩, 1)

/-- One iteration of the per-category loop of `load_models_and_schemas`
(`utils.py` lines 66–94): the three fetches are attempted independently;
each failure only skips its own cache slot.  Three requests are issued
regardless of success. -/
def loadCategory (net : Net) (cat : String) (s : LoadState) : LoadState :=
  let s1 : LoadState :=
    match net.fetchModel cat with
    | some m => ⟨dinsert cat m s.models, s.schemas, s.data, s.catsCache⟩
    | none => s
  let s2 : LoadState :=
    match net.fetchSchema cat with
    | some sc => ⟨s1.models, dinsert cat sc s1.schemas, s1.data, s1.catsCache⟩
    | none => s1
  match net.fetchData cat with
  | some df => ⟨s2.models, s2.schemas, dinsert cat df s2.data, s2.catsCache⟩
  | none => s2

/-- `utils.load_models_and_schemas()` (`utils.py` lines 58–96).  The guard
`if _cached_models and _cached_schemas and _cached_data` is Python dict
truthiness: all three caches must be non-empty for the short-circuit.  The
result is the final cache state (the function returns the three cache
dicts themselves) paired with the number of network requests issued. -/
def load_models_and_schemas (net : Net) (s : LoadState) : LoadState × ℕ :=
  if s.models ≠ [] ∧ s.schemas ≠ [] ∧ s.data ≠ [] then (s, 0)
  else
    let catsStep := get_categories_from_github net s
    let cats := catsStep.1
    let s1 := catsStep.2.1
    (cats.foldl (fun acc c => loadCategory net c acc) s1,
     catsStep.2.2 + 3 * cats.length)

/-! Concrete fixtures used by the witnesses and counterexamples below. -/

/-- The empty request payload. -/
def feat0 : RawDict := fun _ => none

/-- The §8 example schema for phones: one plain column, one encoded
categorical with classes 64/128/256. -/
def schemaEx : Schema :=
  ⟨["ram", "storage_encoded"], ["storage"], [("storage", ["64", "128", "256"])], none⟩

/-- The §8 example payload `{ram: 6, storage: "128"}`. -/
def dataEx : RawDict := fun k =>
  if k = "ram" then some (.int 6)
  else if k = "storage" then some (.str "128")
  else none

/-- A payload whose `weight` value is a non-numeric string. -/
def dataBadWeight : RawDict := fun k =>
  if k = "weight" then some (.str "heavy") else none

/-- A schema whose only feature is the plain column `weight`. -/
def schemaWeight : Schema :=
  ⟨["weight"], [], [], none⟩

/-- A payload whose `ram` value is a non-numeric string. -/
def dataBadRam : RawDict := fun k =>
  if k = "ram" then some (.str "lots") else none

/-- A schema whose only feature is the plain column `ram`. -/
def schemaRam : Schema :=
  ⟨["ram"], [], [], none⟩

/-- Three furniture rows with prices 100/200/300 (the §8 market example). -/
def frame3 : Frame :=
  ⟨[⟨100, 4, "oak co", 0, 0, "wood"⟩,
    ⟨200, 4, "pine co", 0, 0, "wood"⟩,
    ⟨300, 4, "teak co", 0, 0, "wood"⟩], true, true, false, false, true⟩

/-- A market-data store holding `frame3` for every category. -/
def md3 : String → Option Frame := fun _ => some frame3

/-- A payload supplying only a brand that matches no row of `frame3`. -/
def featSony : RawDict := fun k =>
  if k = "brand" then some (.str "Sony") else none

/-- A single-row phones frame with price 42. -/
def frame42 : Frame :=
  ⟨[⟨42, 4, "zeta", 64, 4, "metal"⟩], true, true, true, true, true⟩

/-- A market-data store holding `frame42` for every category. -/
def md42 : String → Option Frame := fun _ => some frame42

/-- A payload whose `storage` value is a non-numeric string. -/
def featBadStorage : RawDict := fun k =>
  if k = "storage" then some (.str "big") else none

/-- A model store whose predictor always raises. -/
def modelsRaise : String → Option Predictor := fun _ => some (fun _ => none)

/-- A schema store with no schemas at all. -/
def schemasNone : String → Option Schema := fun _ => none

/-- A model store with no models at all. -/
def modelsNone : String → Option Predictor := fun _ => none

/-- A model store whose predictor always returns 100. -/
def models100 : String → Option Predictor := fun _ => some (fun _ => some 100)

/-- A schema store carrying `r2_score = 0.8` and no feature columns. -/
def schemas08 : String → Option Schema := fun _ => some ⟨[], [], [], some 0.8⟩

/-- An empty market-data store. -/
def mdNone : String → Option Frame := fun _ => none

/-- A host where every model fetch succeeds but every schema and dataset
fetch fails, and the directory listing request itself fails. -/
def netModelsOnly : Net :=
  ⟨none, false, fun _ => some 1, fun _ => none, fun _ => none⟩

/-- A host where the listing returns one category and all three fetches
succeed. -/
def netAllOk : Net :=
  ⟨some ["phones"], false, fun _ => some 7, fun _ => some emptySchema,
   fun _ => some frame42⟩

/-! Helper lemmas about the rounding model. -/

theorem roundHalfEven_cases (q : ℚ) :
    roundHalfEven q = ⌊q⌋ ∨ (roundHalfEven q = ⌊q⌋ + 1 ∧ 1/2 ≤ q - ⌊q⌋) := by
  unfold roundHalfEven
  split
  · exact Or.inl rfl
  · rename_i h1
    push_neg at h1
    split
    · exact Or.inr ⟨rfl, h1⟩
    · split
      · exact Or.inl rfl
      · exact Or.inr ⟨rfl, h1⟩

theorem roundHalfEven_intCast (n : ℤ) : roundHalfEven (n : ℚ) = n := by
  unfold roundHalfEven
  rw [Int.floor_intCast, sub_self, if_pos (by norm_num : (0:ℚ) < 1/2)]

theorem le_roundHalfEven (m : ℤ) (q : ℚ) (h : (m:ℚ) ≤ q) : m ≤ roundHalfEven q := by
  have hf : m ≤ ⌊q⌋ := Int.le_floor.mpr h
  rcases roundHalfEven_cases q with he | ⟨he, _⟩ <;> rw [he] <;> omega

theorem roundHalfEven_le (m : ℤ) (q : ℚ) (h : q ≤ (m:ℚ)) : roundHalfEven q ≤ m := by
  have hfle : (⌊q⌋ : ℚ) ≤ q := Int.floor_le q
  have hfm : ⌊q⌋ ≤ m := by exact_mod_cast hfle.trans h
  rcases roundHalfEven_cases q with he | ⟨he, hhalf⟩
  · rw [he]; exact hfm
  · rw [he]
    have : (⌊q⌋ : ℚ) < (m : ℚ) := by linarith
    have : ⌊q⌋ < m := by exact_mod_cast this
    omega

theorem pyRound1_intCast (n : ℤ) : pyRound1 (n : ℚ) = (n : ℚ) := by
  unfold pyRound1
  rw [show ((n:ℚ) * 10) = (((n * 10 : ℤ)):ℚ) by push_cast; ring, roundHalfEven_intCast]
  push_cast
  rw [mul_div_assoc]
  norm_num

theorem pyRound2_intCast (n : ℤ) : pyRound2 (n : ℚ) = (n : ℚ) := by
  unfold pyRound2
  rw [show ((n:ℚ) * 100) = (((n * 100 : ℤ)):ℚ) by push_cast; ring, roundHalfEven_intCast]
  push_cast
  rw [mul_div_assoc]
  norm_num

/-- Rounding to two decimals preserves the confidence bounds, because both
endpoints are two-decimal values. -/
theorem pyRound2_conf_bounds (x : ℚ) (h1 : 0.6 ≤ x) (h2 : x ≤ 0.95) :
    0.6 ≤ pyRound2 x ∧ pyRound2 x ≤ 0.95 := by
  have hlo : (60:ℤ) ≤ roundHalfEven (x * 100) :=
    le_roundHalfEven 60 (x * 100) (by push_cast; linarith)
  have hhi : roundHalfEven (x * 100) ≤ (95:ℤ) :=
    roundHalfEven_le 95 (x * 100) (by push_cast; linarith)
  have hlo' : ((60:ℤ):ℚ) ≤ (roundHalfEven (x * 100) : ℚ) := by exact_mod_cast hlo
  have hhi' : ((roundHalfEven (x * 100) : ℤ):ℚ) ≤ ((95:ℤ):ℚ) := by exact_mod_cast hhi
  unfold pyRound2
  constructor
  · push_cast at hlo'
    norm_num
    linarith
  · push_cast at hhi'
    norm_num
    linarith

/-- C8. The root variant's comparison percentage is the epsilon-guarded
formula and never errors; the backend variant's division is guarded by
`(avg or 1)` and never errors either. -/
theorem claim_C8_epsilon_guard :
    (∀ p a : ℚ, percentage p a = some (pyRound1 (|p - a| / max a (1/1000000) * 100)))
    ∧ (∀ p a : ℚ, ∃ q, percentage_backend p a = some q) := by
  constructor
  · intro p a
    have hpos : (0:ℚ) < max a (1/1000000) :=
      lt_of_lt_of_le (by norm_num) (le_max_right _ _)
    unfold percentage pyDiv
    rw [if_neg (ne_of_gt hpos)]
  · intro p a
    unfold percentage_backend pyDiv
    by_cases ha : a = 0
    · simp only [if_pos ha]
      rw [if_neg (by norm_num : (1:ℚ) ≠ 0)]
      exact ⟨_, rfl⟩
    · simp only [if_neg ha]
      exact ⟨_, rfl⟩

/-- C8, counterexample to the claim as stated: at `predicted = 1`,
`market_average = 0` the backend variant returns 100%, while the claimed
`max(avg, 1e-6)` formula gives 100000000% under either rounding
convention. -/
theorem claim_C8_counterexample :
    percentage_backend 1 0 = some 100
    ∧ pyRound1 (|(1:ℚ) - 0| / max 0 (1/1000000) * 100) = 100000000
    ∧ pyRound2 (|(1:ℚ) - 0| / max 0 (1/1000000) * 100) = 100000000 := by
  refine ⟨?_, ?_, ?_⟩
  · have h2 : pyRound2 (|(1:ℚ) - 0| / 1 * 100) = 100 := by
      rw [show |(1:ℚ) - 0| / 1 * 100 = ((100:ℤ):ℚ) by norm_num, pyRound2_intCast]
      norm_num
    unfold percentage_backend pyDiv
    rw [if_pos rfl, if_neg (by norm_num : (1:ℚ) ≠ 0)]
    show some (pyRound2 (|(1:ℚ) - 0| / 1 * 100)) = some 100
    rw [h2]
  · rw [max_eq_right (by norm_num : (0:ℚ) ≤ 1/1000000)]
    rw [show |(1:ℚ) - 0| / (1/1000000) * 100 = ((100000000:ℤ):ℚ) by norm_num]
    rw [pyRound1_intCast]
    norm_num
  · rw [max_eq_right (by norm_num : (0:ℚ) ≤ 1/1000000)]
    rw [show |(1:ℚ) - 0| / (1/1000000) * 100 = ((100000000:ℤ):ℚ) by norm_num]
    rw [pyRound2_intCast]
    norm_num

/-- C9, amended: whenever all three caches are non-empty — in particular
after a first call that populated each of them — `load_models_and_schemas`
is a no-op: it returns the cached structures unchanged and issues zero
network requests. -/
theorem claim_C9_cached_noop (net : Net) (s1 : LoadState)
    (h1 : s1.models ≠ []) (h2 : s1.schemas ≠ []) (h3 : s1.data ≠ []) :
    load_models_and_schemas net s1 = (s1, 0) := by
  unfold load_models_and_schemas
  rw [if_pos ⟨h1, h2, h3⟩]

/-- C9, witness: against a fully healthy host, the second call returns the
first call's cache state with zero network requests. -/
theorem claim_C9_witness :
    load_models_and_schemas netAllOk
        (load_models_and_schemas netAllOk initialLoadState).1 =
      ((load_models_and_schemas netAllOk initialLoadState).1, 0) :=
  claim_C9_cached_noop netAllOk _ (by decide) (by decide) (by decide)

/-- C9, counterexample to the claim as stated: when every schema and
dataset fetch failed, the first call leaves those caches empty, so the
second call fails the truthiness guard and re-issues 9 network requests
(3 per fallback category) — not the claimed idempotent no-op. -/
theorem claim_C9_counterexample :
    (load_models_and_schemas netModelsOnly
        (load_models_and_schemas netModelsOnly initialLoadState).1).2 = 9
    ∧ (load_models_and_schemas netModelsOnly initialLoadState).1.models ≠ [] := by
  constructor <;> decide

/-- C6, amended: the backend `predict` returns NotFound whenever the model
or the schema is absent; the root `predict` guards only on the model —
its NotFound is guaranteed just for an absent model. -/
theorem claim_C6_not_found_guard (models : String → Option Predictor)
    (schemas : String → Option Schema) (md : String → Option Frame)
    (cat : String) (data : RawDict) :
    ((models cat = none ∨ schemas cat = none) →
        predict_backend models schemas md cat data = .notFound)
    ∧ (models cat = none → predict_main models schemas md cat data = .notFound) := by
  constructor
  · intro h
    unfold predict_backend
    rcases h with h | h
    · rw [h]
    · rw [h]
      cases hm : models cat <;> rfl
  · intro h
    unfold predict_main
    rw [h]

/-- C6, witness: with empty stores, both variants answer NotFound. -/
theorem claim_C6_witness :
    predict_backend modelsNone schemasNone mdNone "phones" feat0 = .notFound
    ∧ predict_main modelsNone schemasNone mdNone "phones" feat0 = .notFound :=
  ⟨(claim_C6_not_found_guard modelsNone schemasNone mdNone "phones" feat0).1 (Or.inl rfl),
   (claim_C6_not_found_guard modelsNone schemasNone mdNone "phones" feat0).2 rfl⟩

/-- C6, counterexample to the claim as stated: in the root variant a
category whose model is present but whose schema is absent is not answered
with NotFound — the body runs with the `{}` schema default and the
predictor's failure surfaces as a 500 ComputeError. -/
theorem claim_C6_counterexample :
    schemasNone "phones" = none
    ∧ (modelsRaise "phones").isSome = true
    ∧ predict_main modelsRaise schemasNone mdNone "phones" feat0
        = .computeError := by
  refine ⟨rfl, rfl, rfl⟩

/-- One column of the feature build agrees with the specification's
per-column description whenever the value it would coerce is coercible. -/
theorem featOne_ok (data : RawDict) (schema : Schema) (col : String)
    (h : strEndsWith col "_encoded" = false → coercibleAt data col = true) :
    featOne data schema col = .ok (claim_column_value data schema col) := by
  unfold featOne claim_column_value
  cases hE : strEndsWith col "_encoded"
  · have hc := h hE
    unfold coercibleAt at hc
    simp only [Bool.false_eq_true, if_false]
    cases hd : data col
    · simp
    · rename_i v
      rw [hd] at hc
      have hc' : (pyFloat v).isSome = true := hc
      show (match pyFloat v with
            | some q => Except.ok q
            | none => Except.error ()) = Except.ok ((pyFloat v).getD 0)
      cases hf : pyFloat v
      · rw [hf] at hc'
        simp at hc'
      · simp [hf]
  · simp only [if_true]
    split <;> rfl

theorem featList_ok (data : RawDict) (schema : Schema) (cols : List String)
    (h : ∀ col ∈ cols,
        strEndsWith col "_encoded" = false → coercibleAt data col = true) :
    featList data schema cols = .ok (cols.map (claim_column_value data schema)) := by
  induction cols with
  | nil => rfl
  | cons c cs ih =>
    have hc : featOne data schema c = .ok (claim_column_value data schema c) :=
      featOne_ok data schema c (fun he => h c (List.mem_cons_self c cs) he)
    have ih' := ih (fun col hcol he => h col (List.mem_cons_of_mem c hcol) he)
    simp only [featList, hc, ih', List.map_cons]

/-- C1, amended: whenever every value supplied for a plain feature column
is `float()`-coercible, `prepare_features` returns exactly the vector the
spec describes — one number per schema column, in order — so its length is
`len(feature_columns)`; a non-coercible supplied value instead aborts the
build (see the counterexample). -/
theorem claim_C1_vector (data : RawDict) (schema : Schema)
    (h : ∀ col ∈ schema.feature_columns,
        strEndsWith col "_encoded" = false → coercibleAt data col = true) :
    prepare_features data schema
        = .ok (schema.feature_columns.map (claim_column_value data schema))
    ∧ (schema.feature_columns.map (claim_column_value data schema)).length
        = schema.feature_columns.length :=
  ⟨featList_ok data schema schema.feature_columns h, List.length_map _ _⟩

/-- C1, witness: the §8 example — `{ram: 6, storage: "128"}` against the
phones schema gives `[6.0, 1]` (index of `"128"` in the encoder). -/
theorem claim_C1_witness :
    prepare_features dataEx schemaEx = .ok [6, 1]
    ∧ (schemaEx.feature_columns.map (claim_column_value dataEx schemaEx)).length
        = schemaEx.feature_columns.length := by
  have h := claim_C1_vector dataEx schemaEx (by decide)
  have hmap : schemaEx.feature_columns.map (claim_column_value dataEx schemaEx)
      = [6, 1] := by decide
  exact ⟨h.1.trans (by rw [hmap]), h.2⟩

/-- C1, counterexample to the claim as stated: a payload whose `weight`
is the non-numeric string `"heavy"` makes `prepare_features` raise
(`float("heavy")` is a `ValueError`), so no vector is returned at all. -/
theorem claim_C1_counterexample :
    prepare_features dataBadWeight schemaWeight = .error () := by decide

/-- C4, amended: `prepare_features` never raises on missing keys — the
all-missing payload always yields a full default vector — and more
generally succeeds with a vector of schema length whenever each supplied
plain-column value is `float()`-coercible; a supplied non-coercible value
does raise. -/
theorem claim_C4_leniency :
    (∀ schema : Schema, prepare_features feat0 schema
        = .ok (schema.feature_columns.map (claim_column_value feat0 schema)))
    ∧ (∀ (data : RawDict) (schema : Schema),
        (∀ col ∈ schema.feature_columns,
            strEndsWith col "_encoded" = false → coercibleAt data col = true) →
        ∃ vec, prepare_features data schema = .ok vec
          ∧ vec.length = schema.feature_columns.length) := by
  constructor
  · intro schema
    exact featList_ok feat0 schema _ (fun col hcol he => rfl)
  · intro data schema h
    exact ⟨_, featList_ok data schema _ h, List.length_map _ _⟩

/-- C4, witness: a concrete payload with a coercible int and an encoded
categorical builds successfully with the schema's length. -/
theorem claim_C4_witness :
    ∃ vec, prepare_features dataEx schemaEx = .ok vec
      ∧ vec.length = schemaEx.feature_columns.length :=
  claim_C4_leniency.2 dataEx schemaEx (by decide)

/-- C4, counterexample to the claim as stated: the malformed value
`ram = "lots"` raises inside `prepare_features` instead of being replaced
by a default. -/
theorem claim_C4_counterexample :
    prepare_features dataBadRam schemaRam = .error () := by decide

/-! Helper lemmas about the narrowing steps. -/

theorem matchFilter_sublist (rows : List Row) (get : Row → String) (v : RawVal) :
    (matchFilter rows get v).Sublist rows := by
  unfold matchFilter
  split
  · exact List.Sublist.refl rows
  · exact List.filter_sublist rows

theorem matchFilter_ne_nil (rows : List Row) (get : Row → String) (v : RawVal)
    (h : rows ≠ []) : matchFilter rows get v ≠ [] := by
  unfold matchFilter
  split
  · exact h
  · assumption

theorem brandFilter_sublist (features : RawDict) (f : Frame) :
    (brandFilter features f).Sublist f.rows := by
  unfold brandFilter
  cases hb : features "brand"
  · exact List.Sublist.refl _
  · cases hh : f.hasBrand
    · exact List.Sublist.refl _
    · exact matchFilter_sublist _ _ _

theorem brandFilter_ne_nil (features : RawDict) (f : Frame) (h : f.rows ≠ []) :
    brandFilter features f ≠ [] := by
  unfold brandFilter
  cases hb : features "brand"
  · exact h
  · cases hh : f.hasBrand
    · exact h
    · exact matchFilter_ne_nil _ _ _ h

theorem tolFilter_ok_sublist {rows : List Row} {get : Row → ℚ} {v : RawVal}
    {tol : ℚ} {rows' : List Row} (h : tolFilter rows get v tol = .ok rows') :
    rows'.Sublist rows := by
  unfold tolFilter at h
  cases hf : pyFloat v <;> rw [hf] at h
  · simp at h
  · simp only [Except.ok.injEq] at h
    subst h
    exact List.filter_sublist rows

theorem maybeTolFilter_ok_sublist {o : Option RawVal} {has : Bool}
    {rows : List Row} {get : Row → ℚ} {tol : ℚ} {rows' : List Row}
    (h : maybeTolFilter o has rows get tol = .ok rows') : rows'.Sublist rows := by
  unfold maybeTolFilter at h
  rcases o with _ | v
  · simp only [Except.ok.injEq] at h
    subst h
    exact List.Sublist.refl _
  · cases has
    · simp only [Except.ok.injEq] at h
      subst h
      exact List.Sublist.refl _
    · exact tolFilter_ok_sublist h

theorem categoryNarrow_ok_sublist {cat : String} {features : RawDict} {f : Frame}
    {rows rows' : List Row} (h : categoryNarrow cat features f rows = .ok rows') :
    rows'.Sublist rows := by
  unfold categoryNarrow at h
  split at h
  · cases h1 : maybeTolFilter (features "storage") f.hasStorage rows Row.storage 128
    · rw [h1] at h; simp at h
    · rw [h1] at h
      exact (maybeTolFilter_ok_sublist h).trans (maybeTolFilter_ok_sublist h1)
  · split at h
    · cases h1 : maybeTolFilter (features "ram") f.hasRam rows Row.ram 8
      · rw [h1] at h; simp at h
      · rw [h1] at h
        exact (maybeTolFilter_ok_sublist h).trans (maybeTolFilter_ok_sublist h1)
    · split at h
      · rcases hm : features "material" with _ | v
        · rw [hm] at h
          simp only [Except.ok.injEq] at h
          subst h
          exact List.Sublist.refl _
        · rw [hm] at h
          cases hh : f.hasMaterial <;> rw [hh] at h <;>
            simp only [Except.ok.injEq] at h <;> subst h
          · exact List.Sublist.refl _
          · exact matchFilter_sublist _ _ _
      · simp only [Except.ok.injEq] at h
        subst h
        exact List.Sublist.refl _

/-! Mean bounds. -/

theorem mul_length_le_sumPrice (a : ℚ) (S : List Row)
    (h : ∀ r ∈ S, a ≤ r.price) : a * S.length ≤ (S.map Row.price).sum := by
  induction S with
  | nil => simp
  | cons r rs ih =>
    have h1 := h r (List.mem_cons_self r rs)
    have h2 := ih (fun x hx => h x (List.mem_cons_of_mem r hx))
    simp only [List.map_cons, List.sum_cons, List.length_cons]
    push_cast
    have he : a * ((rs.length : ℚ) + 1) = a * rs.length + a := by ring
    rw [he]
    linarith

theorem sumPrice_le_mul_length (b : ℚ) (S : List Row)
    (h : ∀ r ∈ S, r.price ≤ b) : (S.map Row.price).sum ≤ b * S.length := by
  induction S with
  | nil => simp
  | cons r rs ih =>
    have h1 := h r (List.mem_cons_self r rs)
    have h2 := ih (fun x hx => h x (List.mem_cons_of_mem r hx))
    simp only [List.map_cons, List.sum_cons, List.length_cons]
    push_cast
    have he : b * ((rs.length : ℚ) + 1) = b * rs.length + b := by ring
    rw [he]
    linarith

theorem le_meanPrice (a : ℚ) (S : List Row) (h0 : S ≠ [])
    (h : ∀ r ∈ S, a ≤ r.price) : a ≤ meanPrice S := by
  have hlen : 0 < (S.length : ℚ) := by
    have := List.length_pos.mpr h0
    exact_mod_cast this
  unfold meanPrice
  rw [le_div_iff₀ hlen]
  exact mul_length_le_sumPrice a S h

theorem meanPrice_le (b : ℚ) (S : List Row) (h0 : S ≠ [])
    (h : ∀ r ∈ S, r.price ≤ b) : meanPrice S ≤ b := by
  have hlen : 0 < (S.length : ℚ) := by
    have := List.length_pos.mpr h0
    exact_mod_cast this
  unfold meanPrice
  rw [div_le_iff₀ hlen]
  exact sumPrice_le_mul_length b S h

/-- A successful `try`-block result is the mean of a non-empty subset of
the original rows. -/
theorem cma_body_ok_mean {cat : String} {features : RawDict} {f : Frame} {v : ℚ}
    (hne : f.rows ≠ []) (h : cma_body cat features f = .ok v) :
    ∃ S, S ≠ [] ∧ S.Sublist f.rows ∧ v = meanPrice S := by
  unfold cma_body at h
  cases h2 : categoryNarrow cat features f (brandFilter features f) with
  | error e => rw [h2] at h; simp at h
  | ok rows2 =>
    simp only [h2] at h
    have hsub2 : rows2.Sublist f.rows :=
      (categoryNarrow_ok_sublist h2).trans (brandFilter_sublist features f)
    by_cases h5 : rows2.length < 5
    · rw [if_pos h5] at h
      cases h3 : broaden features f with
      | error e => rw [h3] at h; simp at h
      | ok rows3 =>
        simp only [h3] at h
        simp only [Except.ok.injEq] at h
        subst h
        by_cases hnil : rows3 = []
        · rw [if_pos hnil]
          exact ⟨f.rows, hne, List.Sublist.refl _, rfl⟩
        · rw [if_neg hnil]
          exact ⟨rows3, hnil, maybeTolFilter_ok_sublist h3, rfl⟩
    · rw [if_neg h5] at h
      simp only [Except.ok.injEq] at h
      subst h
      by_cases hnil : rows2 = []
      · rw [if_pos hnil]
        exact ⟨f.rows, hne, List.Sublist.refl _, rfl⟩
      · rw [if_neg hnil]
        exact ⟨rows2, hnil, hsub2, rfl⟩

/-- C3. The comparator's result is always delivered by a total fallback
scheme: 500 when the dataset is missing, 500 when it is empty, and — on
any exception inside the `try`-block (for example a `float()` coercion
error on a supplied feature) — the mean price of the original unfiltered
dataset.  In the model every failure is an `.error` of `cma_body`, and
`calculate_market_average` is a total function. -/
theorem claim_C3_never_raises (cat : String) (features : RawDict)
    (md : String → Option Frame) :
    (md cat = none → calculate_market_average cat features md = 500)
    ∧ (∀ f, md cat = some f → f.rows = [] →
        calculate_market_average cat features md = 500)
    ∧ (∀ f e, md cat = some f → f.rows ≠ [] →
        cma_body cat features f = .error e →
        calculate_market_average cat features md = meanPrice f.rows) := by
  refine ⟨?_, ?_, ?_⟩
  · intro h
    unfold calculate_market_average
    rw [h]
  · intro f hf he
    unfold calculate_market_average
    simp only [hf]
    rw [if_pos he]
  · intro f e hf hne hb
    unfold calculate_market_average
    simp only [hf]
    rw [if_neg hne, hb]

/-- C3, witness: a phones request whose `storage` is the non-numeric
string `"big"` makes the `try`-block raise, and the caught exception is
mapped to the unfiltered mean 42. -/
theorem claim_C3_witness :
    calculate_market_average "phones" featBadStorage md42 = 42 := by
  have hb : cma_body "phones" featBadStorage frame42 = .error () := by decide
  have h := (claim_C3_never_raises "phones" featBadStorage md42).2.2 frame42 ()
    rfl (by decide) hb
  rw [h]
  norm_num [meanPrice, frame42]

/-- C5. When the payload supplies a brand and the frame has a brand
column: the case-insensitive filter is applied exactly when it matches at
least one row, no match passes the rows through unchanged, and the brand
step never empties a non-empty dataset. -/
theorem claim_C5_brand_guard (features : RawDict) (f : Frame) (bv : RawVal)
    (hb : features "brand" = some bv) (hcol : f.hasBrand = true) :
    (f.rows.filter (fun r => pyLower r.brand = pyLower (pyStr bv)) ≠ [] →
        brandFilter features f
          = f.rows.filter (fun r => pyLower r.brand = pyLower (pyStr bv)))
    ∧ (f.rows.filter (fun r => pyLower r.brand = pyLower (pyStr bv)) = [] →
        brandFilter features f = f.rows)
    ∧ (f.rows ≠ [] → brandFilter features f ≠ []) := by
  have hbf : brandFilter features f = matchFilter f.rows Row.brand bv := by
    unfold brandFilter
    rw [hb, hcol]
  refine ⟨?_, ?_, ?_⟩
  · intro h
    rw [hbf]
    unfold matchFilter
    rw [if_neg h]
  · intro h
    rw [hbf]
    unfold matchFilter
    rw [if_pos h]
  · intro h
    rw [hbf]
    exact matchFilter_ne_nil f.rows Row.brand bv h

/-- C5, witness: a brand (`"Sony"`) matching none of the three furniture
rows leaves the dataset untouched and non-empty. -/
theorem claim_C5_witness :
    brandFilter featSony frame3 = frame3.rows
    ∧ brandFilter featSony frame3 ≠ [] := by
  have h := claim_C5_brand_guard featSony frame3 (.str "Sony") rfl rfl
  exact ⟨h.2.1 (by decide), h.2.2 (by decide)⟩

/-- C10. The comparator's value is 500 exactly on a missing or empty
dataset, and otherwise the mean price of some non-empty subset of the
category's rows — hence bounded by any bound on the dataset's prices. -/
theorem claim_C10_mean_of_subset (cat : String) (features : RawDict)
    (md : String → Option Frame) :
    ((md cat = none ∨ ∃ f, md cat = some f ∧ f.rows = []) →
        calculate_market_average cat features md = 500)
    ∧ (∀ f, md cat = some f → f.rows ≠ [] →
        (∃ S, S ≠ [] ∧ S.Sublist f.rows
            ∧ calculate_market_average cat features md = meanPrice S)
        ∧ (∀ a, (∀ r ∈ f.rows, a ≤ r.price) →
            a ≤ calculate_market_average cat features md)
        ∧ (∀ b, (∀ r ∈ f.rows, r.price ≤ b) →
            calculate_market_average cat features md ≤ b)) := by
  constructor
  · rintro (h | ⟨f, hf, he⟩)
    · unfold calculate_market_average
      rw [h]
    · unfold calculate_market_average
      simp only [hf]
      rw [if_pos he]
  · intro f hf hne
    have hmain : ∃ S, S ≠ [] ∧ S.Sublist f.rows
        ∧ calculate_market_average cat features md = meanPrice S := by
      unfold calculate_market_average
      simp only [hf]
      rw [if_neg hne]
      cases hb : cma_body cat features f with
      | ok v =>
        obtain ⟨S, h1, h2, h3⟩ := cma_body_ok_mean hne hb
        exact ⟨S, h1, h2, h3⟩
      | error e =>
        exact ⟨f.rows, hne, List.Sublist.refl _, rfl⟩
    refine ⟨hmain, ?_, ?_⟩
    · intro a ha
      obtain ⟨S, hS0, hSsub, hSeq⟩ := hmain
      rw [hSeq]
      exact le_meanPrice a S hS0 (fun r hr => ha r (hSsub.subset hr))
    · intro b hb
      obtain ⟨S, hS0, hSsub, hSeq⟩ := hmain
      rw [hSeq]
      exact meanPrice_le b S hS0 (fun r hr => hb r (hSsub.subset hr))

/-- C10, witness: on the three-row furniture dataset the comparator's
value stays between the minimum price 100 and the maximum price 300. -/
theorem claim_C10_witness :
    (100:ℚ) ≤ calculate_market_average "furniture" feat0 md3
    ∧ calculate_market_average "furniture" feat0 md3 ≤ 300 := by
  have h := (claim_C10_mean_of_subset "furniture" feat0 md3).2 frame3 rfl (by decide)
  refine ⟨h.2.1 100 ?_, h.2.2 300 ?_⟩
  · intro r hr
    simp only [frame3, List.mem_cons, List.not_mem_nil, or_false] at hr
    rcases hr with rfl | rfl | rfl <;> decide
  · intro r hr
    simp only [frame3, List.mem_cons, List.not_mem_nil, or_false] at hr
    rcases hr with rfl | rfl | rfl <;> decide

/-- C2. When, after the brand filter and the category-specific narrowing,
fewer than 5 rows remain, all narrowing is discarded: the result restarts
from the full dataset with only the rating-tolerance filter (±1.0, applied
only when a rating feature was supplied and the column exists); an empty
final set yields the mean of the original dataset, a non-empty one its own
mean. -/
theorem claim_C2_relaxation (cat : String) (features : RawDict)
    (md : String → Option Frame) (f : Frame) (rows2 : List Row)
    (hmd : md cat = some f) (hne : f.rows ≠ [])
    (hnarrow : categoryNarrow cat features f (brandFilter features f) = .ok rows2)
    (hlt : rows2.length < 5)
    (hrat : coercibleAt features "rating" = true) :
    calculate_market_average cat features md =
      match features "rating", f.hasRating with
      | some v, true =>
          if f.rows.filter (fun r => |r.rating - (pyFloat v).getD 0| ≤ 1) = []
          then meanPrice f.rows
          else meanPrice (f.rows.filter (fun r => |r.rating - (pyFloat v).getD 0| ≤ 1))
      | _, _ => meanPrice f.rows := by
  have hbody : cma_body cat features f =
      .ok (match features "rating", f.hasRating with
        | some v, true =>
            if f.rows.filter (fun r => |r.rating - (pyFloat v).getD 0| ≤ 1) = []
            then meanPrice f.rows
            else meanPrice (f.rows.filter (fun r => |r.rating - (pyFloat v).getD 0| ≤ 1))
        | _, _ => meanPrice f.rows) := by
    unfold cma_body
    simp only [hnarrow]
    rw [if_pos hlt]
    unfold broaden maybeTolFilter
    unfold coercibleAt at hrat
    cases hr : features "rating" with
    | none =>
      cases hh : f.hasRating <;> simp [ite_self]
    | some v =>
      rw [hr] at hrat
      have hrat' : (pyFloat v).isSome = true := hrat
      cases hh : f.hasRating
      · simp [ite_self]
      · unfold tolFilter
        cases hf : pyFloat v
        · rw [hf] at hrat'
          simp at hrat'
        · simp [hf]
  unfold calculate_market_average
  simp only [hmd]
  rw [if_neg hne, hbody]

/-- C2, witness: the §8 furniture example — three rows with prices
100/200/300 and an empty payload narrow to fewer than 5 rows, the
relaxation restarts from the full dataset with no rating filter, and the
full mean 200 is returned. -/
theorem claim_C2_witness :
    calculate_market_average "furniture" feat0 md3 = 200 := by
  have h := claim_C2_relaxation "furniture" feat0 md3 frame3 frame3.rows rfl
    (by decide) rfl (by decide) rfl
  rw [h]
  show meanPrice frame3.rows = 200
  norm_num [meanPrice, frame3]

/-- The clamp keeps every quality score inside [0.6, 0.95]. -/
theorem confidence_clamp_bounds (r2 : ℚ) :
    0.6 ≤ confidence_clamp r2 ∧ confidence_clamp r2 ≤ 0.95 :=
  ⟨le_max_left _ _, max_le (by norm_num) (min_le_left _ _)⟩

/-- Every successful root-variant prediction carries exactly the rounded
clamp of the schema's quality score as its confidence. -/
theorem predict_main_confidence {models : String → Option Predictor}
    {schemas : String → Option Schema} {md : String → Option Frame}
    {cat : String} {data : RawDict} {c : ℚ}
    (h : confidenceOf (predict_main models schemas md cat data) = some c) :
    c = pyRound2 (confidence_clamp (model_r2 schemas cat)) := by
  unfold predict_main at h
  cases hm : models cat <;> simp only [hm] at h
  · simp [confidenceOf] at h
  · rename_i model
    cases hp : prepare_features data ((schemas cat).getD emptySchema) <;>
      simp only [hp] at h
    · simp [confidenceOf] at h
    · rename_i feats
      cases hy : model feats <;> simp only [hy] at h
      · simp [confidenceOf] at h
      · rename_i y
        cases hpct : percentage y (calculate_market_average cat data md) <;>
          simp only [hpct] at h
        · simp [confidenceOf] at h
        · simp only [confidenceOf, Option.some.injEq] at h
          exact h.symm

/-- Every successful backend-variant prediction carries the rounded clamp
of its schema's quality score as its confidence. -/
theorem predict_backend_confidence {models : String → Option Predictor}
    {schemas : String → Option Schema} {md : String → Option Frame}
    {cat : String} {data : RawDict} {c : ℚ}
    (h : confidenceOf (predict_backend models schemas md cat data) = some c) :
    ∃ sch, schemas cat = some sch
      ∧ c = pyRound2 (confidence_clamp (sch.r2_score.getD 0.8)) := by
  unfold predict_backend at h
  cases hm : models cat <;> cases hs : schemas cat <;> simp only [hm, hs] at h
  · simp [confidenceOf] at h
  · simp [confidenceOf] at h
  · simp [confidenceOf] at h
  · rename_i model sch
    refine ⟨sch, rfl, ?_⟩
    cases hp : prepare_features data sch <;> simp only [hp] at h
    · simp [confidenceOf] at h
    · rename_i feats
      cases hy : model feats <;> simp only [hy] at h
      · simp [confidenceOf] at h
      · rename_i y
        cases hpct : percentage_backend y (calculate_market_average cat data md) <;>
          simp only [hpct] at h
        · simp [confidenceOf] at h
        · simp only [confidenceOf, Option.some.injEq] at h
          exact h.symm

/-- C7. Whenever either `predict` variant answers 200, its confidence is
the category's `r2_score` (default 0.8) clamped into [0.6, 0.95] and
rounded to two decimals, hence always within [0.6, 0.95]; and the clamp
maps the out-of-range scores −5 and 1.2 to the respective endpoints. -/
theorem claim_C7_confidence :
    (∀ (models : String → Option Predictor) (schemas : String → Option Schema)
        (md : String → Option Frame) (cat : String) (data : RawDict) (c : ℚ),
        confidenceOf (predict_main models schemas md cat data) = some c →
        c = pyRound2 (confidence_clamp (model_r2 schemas cat))
          ∧ 0.6 ≤ c ∧ c ≤ 0.95)
    ∧ (∀ (models : String → Option Predictor) (schemas : String → Option Schema)
        (md : String → Option Frame) (cat : String) (data : RawDict) (c : ℚ),
        confidenceOf (predict_backend models schemas md cat data) = some c →
        0.6 ≤ c ∧ c ≤ 0.95)
    ∧ confidence_clamp (-5) = 0.6 ∧ confidence_clamp 1.2 = 0.95 := by
  refine ⟨?_, ?_, ?_, ?_⟩
  · intro models schemas md cat data c h
    have hc := predict_main_confidence h
    have hb := confidence_clamp_bounds (model_r2 schemas cat)
    have hr := pyRound2_conf_bounds _ hb.1 hb.2
    exact ⟨hc, hc ▸ hr.1, hc ▸ hr.2⟩
  · intro models schemas md cat data c h
    obtain ⟨sch, _, hc⟩ := predict_backend_confidence h
    have hb := confidence_clamp_bounds (sch.r2_score.getD 0.8)
    have hr := pyRound2_conf_bounds _ hb.1 hb.2
    exact ⟨hc ▸ hr.1, hc ▸ hr.2⟩
  · unfold confidence_clamp
    rw [min_eq_right (by norm_num : (-5:ℚ) ≤ 0.95),
        max_eq_left (by norm_num : (-5:ℚ) ≤ 0.6)]
  · unfold confidence_clamp
    rw [min_eq_left (by norm_num : (0.95:ℚ) ≤ 1.2),
        max_eq_right (by norm_num : (0.6:ℚ) ≤ 0.95)]

/-- C7, witness: a concrete successful root-variant prediction (model
returns 100, market average falls back to 500, `r2_score = 0.8`) has its
confidence equal to the rounded clamp and within the bounds. -/
theorem claim_C7_witness :
    pyRound2 (confidence_clamp (model_r2 schemas08 "phones"))
        = pyRound2 (confidence_clamp (model_r2 schemas08 "phones"))
    ∧ 0.6 ≤ pyRound2 (confidence_clamp (model_r2 schemas08 "phones"))
    ∧ pyRound2 (confidence_clamp (model_r2 schemas08 "phones")) ≤ 0.95 := by
  have hpct : percentage 100 500 = some 80 := by
    unfold percentage pyDiv
    rw [max_eq_left (by norm_num : (1/1000000:ℚ) ≤ 500),
        if_neg (by norm_num : ¬((500:ℚ) = 0))]
    show some (pyRound1 (|(100:ℚ) - 500| / 500 * 100)) = some 80
    rw [show |(100:ℚ) - 500| / 500 * 100 = ((80:ℤ):ℚ) by norm_num,
        pyRound1_intCast]
    norm_num
  have hkey : predict_main models100 schemas08 mdNone "phones" feat0 =
      match percentage 100 500 with
      | none => .computeError
      | some pct =>
        .ok ⟨"phones", pyRound2 100, pyRound2 500,
             pyRound2 (confidence_clamp (model_r2 schemas08 "phones")),
             if (100:ℚ) > 500 then "above" else "below",
             pyRound2 (|(100:ℚ) - 500|), pct⟩ := rfl
  have h : confidenceOf (predict_main models100 schemas08 mdNone "phones" feat0)
      = some (pyRound2 (confidence_clamp (model_r2 schemas08 "phones"))) := by
    rw [hkey, hpct]
    rfl
  exact claim_C7_confidence.1 models100 schemas08 mdNone "phones" feat0 _ h
